import Mathlib

/-!
Shallow embedding of the wallet-scoring logic of `src/early-fogo-checker.py`
(class `FogoTestnetChecker`), together with theorems checking the
natural-language specification against it.

Modelling conventions:
* Python numbers: chain positions ("slots") are unsigned integers, modelled
  as `ℕ`; Python float arithmetic in `calculate_score` is modelled over `ℚ`.
* `round(x, 2)` is modelled by `round2` below (floor of `x*100 + 1/2` over
  100); Python rounds exact half-cent ties to even, this model rounds them
  up — no value analysed in this development sits on a tie.
* Each RPC helper of the source catches its own exceptions and returns an
  absence value; the orchestrator `check_wallet` is therefore a pure
  function of an environment `Env` recording what each remote call would
  return.  The second component of the `check_wallet` result records, in
  order, the RPC calls the pipeline actually awaited.
* The Python result dict key `exists` is a Lean keyword, rendered `exists_`.
-/

namespace Fogo

/-- Source line 93: `slots_per_day = 2_160_000`. -/
def slots_per_day : ℕ := 2160000

/-- Source line 11: `TESTNET_LAUNCH_DATE = datetime(2025, 7, 22, tzinfo=utc)`,
as a day count since the Unix epoch (1970-01-01). -/
def launch_epoch_day : ℤ := 20291

/-- The launch instant of line 11 as Unix seconds (midnight UTC). -/
def launch_epoch_seconds : ℤ := launch_epoch_day * 86400

/-- Model of Python `round(q, 2)` (see the header note on ties). -/
def round2 (q : ℚ) : ℚ := (Rat.floor (q * 100 + 1/2) : ℚ) / 100

/-- Source lines 78-107, `FogoTestnetChecker.calculate_score`, with the
wall-clock reading `datetime.now(timezone.utc)` of line 92 made an explicit
parameter `now_seconds` (Unix seconds).  As in the source, the bound value
`days_since_launch` is never used. -/
def calculate_score_at (now_seconds : ℤ) (first_slot latest_slot : ℕ) : ℚ :=
  if latest_slot ≤ first_slot then 0
  else
    let early_ratio : ℚ := 1 - (first_slot : ℚ) / (latest_slot : ℚ)
    let base_score : ℚ := early_ratio * 100
    let days_since_launch : ℤ := (now_seconds - launch_epoch_seconds) / 86400
    let score : ℚ :=
      if first_slot < slots_per_day then min (base_score + 40) 99.9
      else if first_slot < slots_per_day * 2 then min (base_score + 30) 95.0
      else if first_slot < slots_per_day * 3 then min (base_score + 20) 90.0
      else if first_slot < slots_per_day * 5 then min (base_score + 10) 85.0
      else max base_score 50.0
    round2 score

/-- `calculate_score` at an arbitrary fixed clock reading (the clock is
dead code in the source; see `calculate_score_clock_independent`). -/
def calculate_score (first_slot latest_slot : ℕ) : ℚ :=
  calculate_score_at 0 first_slot latest_slot

/-- Source lines 19-25: the `TIERS` table.  `float("inf")` is modelled by
`none` in the threshold component. -/
def TIERS : List (Option ℕ × String) :=
  [(some 2200000, "🔥 Genesis Early (Day 1)"),
   (some 4300000, "🟠 Super Early (Day 2)"),
   (some 6500000, "🟡 Early (Day 3)"),
   (some 10800000, "🟤 Late (Day 5)"),
   (none, "🔴 Recently Joined")]

/-- The comparison `slot_num < threshold` of source line 112, where the
threshold may be `float("inf")` (`none`), which every int is below. -/
def ltThreshold (slot_num : ℕ) : Option ℕ → Bool
  | none => true
  | some n => slot_num < n

/-- The scanning loop of source lines 111-114, generic in the table. -/
def get_tier_over (table : List (Option ℕ × String)) (slot_num : ℕ) : String :=
  match table with
  | [] => "🔴 Unknown"
  | (threshold, label) :: rest =>
      if ltThreshold slot_num threshold then label else get_tier_over rest slot_num

/-- Source lines 109-114, `FogoTestnetChecker.get_tier`. -/
def get_tier (slot_num : ℕ) : String := get_tier_over TIERS slot_num

/-- A transaction record as returned by `get_signatures_for_address`:
a slot number and an optional wall-clock `block_time` (Unix seconds).
In the source, `slot` is an int whose value `0` is falsy. -/
structure Tx where
  slot : ℕ
  block_time : Option ℤ
deriving DecidableEq

/-- The sort key of source line 63, `x.slot` when truthy, else float
infinity — a falsy (zero) slot sorts as plus infinity. -/
def sortKey (t : Tx) : WithTop ℕ := if t.slot = 0 then ⊤ else (t.slot : WithTop ℕ)

/-- The `sorted(response.value, key=...)` call of source line 63.  The
Python builtin `sorted` is a stable ascending sort; insertion sort on the
non-strict key order is likewise stable and ascending. -/
def sortTxs (txs : List Tx) : List Tx :=
  List.insertionSort (fun a b => sortKey a ≤ sortKey b) txs

/-- Source lines 51-68, `FogoTestnetChecker.get_transaction_history`, as a
function of what the endpoint returned: `none` models both a transport
error (the `except` path) and a null `response.value`; a returned list is
sorted when non-empty (line 61 tests truthiness of `response.value`). -/
def get_transaction_history (response_value : Option (List Tx)) : List Tx :=
  match response_value with
  | some txs => if txs.isEmpty then [] else sortTxs txs
  | none => []

/-- The RPC calls the pipeline can await (source lines 46, 56, 73). -/
inductive RpcCall
  | getAccountInfo
  | getSignaturesForAddress
  | getSlot
deriving DecidableEq

/-- The result record of `check_wallet` (source lines 118-125).  The
specification record also carries `error : optional<string>`; the source
dict never sets an `error` key on any path, modelled as an `error` field
that stays `none`. -/
structure ResultRecord where
  valid : Bool
  exists_ : Bool
  first_slot : Option ℕ
  join_date : Option ℤ
  score : Option ℚ
  tier : Option String
  error : Option String
deriving DecidableEq

/-- The freshly initialised dict of source lines 118-125. -/
def emptyResult : ResultRecord :=
  { valid := false, exists_ := false, first_slot := none, join_date := none,
    score := none, tier := none, error := none }

/-- Everything the pipeline observes from the outside world during one
check of one address:
* `validAddr` — the value of `is_valid_wallet_address(wallet_address)`
  (source lines 34-40, a base58 decode that never raises);
* `account` — what `get_account_info` returns: `none` for a transport
  failure (caught inside, line 48-49), `some v` for a response whose
  `.value` is `v` (`none` = null account);
* `histValue` — the `response.value` seen by `get_transaction_history`,
  with `none` again covering the failure path;
* `latest` — what `get_latest_slot` returns (`none` on failure). -/
structure Env where
  validAddr : Bool
  account : Option (Option Unit)
  histValue : Option (List Tx)
  latest : Option ℕ

/-- The date estimate of source lines 161-164: `launch + slot * 0.04 s`,
taken as a calendar date (day number). `slot * 0.04 / 86400 = slot / 2160000`. -/
def estimated_join_day (slot : ℕ) : ℤ := launch_epoch_day + (slot / slots_per_day : ℕ)

/-- Source lines 157-164: the `join_date` derivation.  Line 158 tests
truthiness of `block_time`, so a zero timestamp also falls to the estimate
branch; `datetime.fromtimestamp(bt).date()` is the floor day of `bt`. -/
def join_date_of (t : Tx) : ℤ :=
  match t.block_time with
  | some bt => if bt = 0 then estimated_join_day t.slot else Int.fdiv bt 86400
  | none => estimated_join_day t.slot

/-- Source lines 116-176, `FogoTestnetChecker.check_wallet`.  First
component: the returned record.  Second component: the RPC calls awaited,
in order.  Control flow mirrors the source: each falsy test short-circuits
by returning the record as filled so far; no path sets an `error` key. -/
def check_wallet (env : Env) : ResultRecord × List RpcCall :=
  if env.validAddr = false then (emptyResult, [])
  else
    let r1 := { emptyResult with valid := true }
    match env.account with
    | none => (r1, [RpcCall.getAccountInfo])
    | some none => (r1, [RpcCall.getAccountInfo])
    | some (some _) =>
      let r2 := { r1 with exists_ := true }
      let calls2 := [RpcCall.getAccountInfo, RpcCall.getSignaturesForAddress]
      match get_transaction_history env.histValue with
      | [] => (r2, calls2)
      | first_tx :: _ =>
        if first_tx.slot = 0 then (r2, calls2)
        else
          let r3 := { r2 with first_slot := some first_tx.slot,
                              join_date := some (join_date_of first_tx) }
          let calls3 := calls2 ++ [RpcCall.getSlot]
          match env.latest with
          | none => (r3, calls3)
          | some l =>
            if l = 0 then (r3, calls3)
            else ({ r3 with score := some (calculate_score first_tx.slot l),
                            tier := some (get_tier first_tx.slot) }, calls3)

/-- The day-bucket formula exactly as the specification words it (Score
Calculator, step 3, with `slotsPerDay = 2,160,000`), for comparison with
the source-derived `calculate_score`. -/
def score_bucket_spec (f l : ℕ) : ℚ :=
  let base : ℚ := (1 - (f : ℚ) / (l : ℚ)) * 100
  round2 (if f < 1 * 2160000 then min (base + 40) 99.9
          else if f < 2 * 2160000 then min (base + 30) 95.0
          else if f < 3 * 2160000 then min (base + 20) 90.0
          else if f < 5 * 2160000 then min (base + 10) 85.0
          else max base 50.0)

/-- The tier lookup exactly as the specification words it: label of the
first table entry whose threshold is strictly greater than the position,
an "unknown" sentinel if the table is exhausted. -/
def tier_lookup_spec (p : ℕ) : String :=
  match TIERS.find? (fun e => ltThreshold p e.1) with
  | some e => e.2
  | none => "🔴 Unknown"

/-- The field-dependency invariant of claim C9, on a result record. -/
def fieldInvariant (r : ResultRecord) : Prop :=
  (r.exists_ = true → r.valid = true) ∧
  (r.first_slot.isSome → r.exists_ = true) ∧
  (r.join_date.isSome ↔ r.first_slot.isSome) ∧
  (r.score.isSome ↔ r.tier.isSome) ∧
  (r.score.isSome → r.first_slot.isSome)

/-- Environment modelling an input string that fails address validation
(e.g. the empty string: `Pubkey.from_string` raises, so line 128 returns
early). -/
def invalidEnv : Env :=
  { validAddr := false, account := none, histValue := none, latest := none }

/-- Environment in which the account-info RPC raises (caught at source
lines 48-49, surfacing as `None`): a pipeline-stage failure. -/
def failingEnv : Env :=
  { validAddr := true, account := none, histValue := none, latest := none }

/-- A fully successful environment: valid address, existing account, one
transaction (slot 5, with a block time), current height 13,000,000. -/
def richEnv : Env :=
  { validAddr := true, account := some (some ()),
    histValue := some [Tx.mk 5 (some 1753228800)], latest := some 13000000 }

/-- An environment whose whole history consists of one zero-slot record. -/
def zeroSlotEnv : Env :=
  { validAddr := true, account := some (some ()),
    histValue := some [Tx.mk 0 none], latest := some 5 }

instance : IsTotal Tx (fun a b => sortKey a ≤ sortKey b) :=
  ⟨fun a b => le_total (sortKey a) (sortKey b)⟩

instance : IsTrans Tx (fun a b => sortKey a ≤ sortKey b) :=
  ⟨fun _ _ _ => le_trans⟩

/-! ### Helper lemmas about `round2` -/

lemma round2_eq_floor (q : ℚ) : round2 q = (⌊q * 100 + 1/2⌋ : ℚ) / 100 := by
  rw [round2, Rat.floor_def, Rat.floor_def']

lemma round2_zero : round2 0 = 0 := by
  rw [round2_eq_floor]; norm_num

lemma round2_nonneg {q : ℚ} (h : 0 ≤ q) : 0 ≤ round2 q := by
  rw [round2_eq_floor]
  refine div_nonneg ?_ (by norm_num)
  have h1 : (0:ℤ) ≤ ⌊q * 100 + 1/2⌋ := Int.floor_nonneg.mpr (by linarith)
  exact_mod_cast h1

lemma round2_le_hundred {q : ℚ} (h : q ≤ 100) : round2 q ≤ 100 := by
  rw [round2_eq_floor, div_le_iff₀ (by norm_num : (0:ℚ) < 100)]
  have h1 : ⌊q * 100 + 1/2⌋ ≤ ⌊(10000:ℚ) + 1/2⌋ := Int.floor_le_floor (by linarith)
  have h2 : ⌊(10000:ℚ) + 1/2⌋ = 10000 := by norm_num
  have h3 : (⌊q * 100 + 1/2⌋ : ℚ) ≤ 10000 := by exact_mod_cast h1.trans_eq h2
  linarith

lemma round2_idem (q : ℚ) : round2 (round2 q) = round2 q := by
  rw [round2_eq_floor q, round2_eq_floor,
    div_mul_cancel₀ _ (by norm_num : (100:ℚ) ≠ 0), Int.floor_int_add]
  norm_num

/-! ### Claim theorems -/

/-- Claim C8: `calculate_score` is a pure deterministic function of its two
slot arguments — the wall-clock reading bound at source line 92 is dead, so
the result is identical for any two clock values. -/
theorem calculate_score_clock_independent (t₁ t₂ : ℤ) (f l : ℕ) :
    calculate_score_at t₁ f l = calculate_score_at t₂ f l := rfl

/-- Claim C2: `calculate_score f l` returns exactly `0` whenever
`l ≤ f` or `l ≤ 0` (chain positions are unsigned, so `l ≤ 0` forces
`l = 0 ≤ f` and the source guard at line 82 fires). -/
theorem calculate_score_zero_of_not_later (f l : ℕ) (h : l ≤ f ∨ l ≤ 0) :
    calculate_score f l = 0 := by
  have hle : l ≤ f := by
    rcases h with h | h
    · exact h
    · omega
  simp [calculate_score, calculate_score_at, hle]

theorem calculate_score_zero_of_not_later_witness : calculate_score 7 7 = 0 :=
  calculate_score_zero_of_not_later 7 7 (Or.inl (le_refl 7))

/-- Claim C1: for `0 ≤ f < l`, `calculate_score f l` equals the piecewise
day-bucket formula of the specification with `slotsPerDay = 2,160,000`,
rounded to two decimals; in particular
`calculate_score 100000 13000000 = 99.9`. -/
theorem calculate_score_eq_bucket_spec :
    (∀ f l : ℕ, f < l → calculate_score f l = score_bucket_spec f l) ∧
    calculate_score 100000 13000000 = 999/10 := by
  constructor
  · intro f l h
    simp only [calculate_score, calculate_score_at, score_bucket_spec, slots_per_day]
    rw [if_neg (not_le.mpr h)]
  · have h1 : calculate_score 100000 13000000
        = round2 (min ((1 - (100000 : ℚ) / 13000000) * 100 + 40) 99.9) := by
      simp only [calculate_score, calculate_score_at, slots_per_day]
      rw [if_neg (by norm_num), if_pos (by norm_num)]
      norm_cast
    rw [h1, min_eq_right (by norm_num), round2_eq_floor]
    norm_num

theorem calculate_score_eq_bucket_spec_witness :
    calculate_score 100000 13000000 = score_bucket_spec 100000 13000000 :=
  calculate_score_eq_bucket_spec.1 100000 13000000 (by decide)

/-- Claim C3: for all (unsigned) positions, `calculate_score` lies in
`[0, 100]` and is a fixed point of rounding to two decimals. -/
theorem calculate_score_bounds (f l : ℕ) :
    0 ≤ calculate_score f l ∧ calculate_score f l ≤ 100 ∧
      round2 (calculate_score f l) = calculate_score f l := by
  by_cases hle : l ≤ f
  · simp [calculate_score, calculate_score_at, hle, round2_zero]
  · push_neg at hle
    have hl0 : (0:ℚ) < l := by
      have : 0 < l := Nat.lt_of_le_of_lt (Nat.zero_le f) hle
      exact_mod_cast this
    have hratio0 : (0:ℚ) ≤ (f:ℚ) / (l:ℚ) := div_nonneg (Nat.cast_nonneg f) (le_of_lt hl0)
    have hratio1 : (f:ℚ) / (l:ℚ) < 1 := (div_lt_one hl0).mpr (by exact_mod_cast hle)
    simp only [calculate_score, calculate_score_at, if_neg (not_le.mpr hle)]
    have hb0 : 0 ≤ (1 - (f:ℚ) / (l:ℚ)) * 100 := by nlinarith
    have hb100 : (1 - (f:ℚ) / (l:ℚ)) * 100 ≤ 100 := by nlinarith
    refine ⟨round2_nonneg ?_, round2_le_hundred ?_, round2_idem _⟩
    · split_ifs
      · exact le_min (by linarith) (by norm_num)
      · exact le_min (by linarith) (by norm_num)
      · exact le_min (by linarith) (by norm_num)
      · exact le_min (by linarith) (by norm_num)
      · exact le_trans (by norm_num) (le_max_right _ _)
    · split_ifs
      · exact le_trans (min_le_right _ _) (by norm_num)
      · exact le_trans (min_le_right _ _) (by norm_num)
      · exact le_trans (min_le_right _ _) (by norm_num)
      · exact le_trans (min_le_right _ _) (by norm_num)
      · exact max_le hb100 (by norm_num)

/-- The scanning loop returns exactly what a first-match table lookup
returns, for any table. -/
lemma get_tier_over_eq_find (table : List (Option ℕ × String)) (p : ℕ) :
    get_tier_over table p =
      match table.find? (fun e => ltThreshold p e.1) with
      | some e => e.2
      | none => "🔴 Unknown" := by
  induction table with
  | nil => rfl
  | cons hd tl ih =>
    rcases hd with ⟨th, lab⟩
    by_cases h : ltThreshold p th
    · simp [get_tier_over, h, List.find?]
    · simp only [get_tier_over, h, Bool.false_eq_true, if_false, ih, List.find?]

/-- Claim C4: `get_tier p` is the label of the first `TIERS` entry whose
threshold is strictly greater than `p`; every `p ≥ 10,800,000` gets the
catch-all label, and an exhausted table yields the "Unknown" sentinel. -/
theorem get_tier_matches_spec :
    (∀ p : ℕ, get_tier p = tier_lookup_spec p) ∧
    (∀ p : ℕ, 10800000 ≤ p → get_tier p = "🔴 Recently Joined") ∧
    (∀ p : ℕ, get_tier_over [] p = "🔴 Unknown") := by
  refine ⟨fun p => ?_, fun p hp => ?_, fun p => rfl⟩
  · rw [get_tier, tier_lookup_spec, get_tier_over_eq_find]
  · simp only [get_tier, TIERS, get_tier_over, ltThreshold, decide_eq_true_eq]
    rw [if_neg (by omega), if_neg (by omega), if_neg (by omega), if_neg (by omega),
      if_pos trivial]

theorem get_tier_matches_spec_witness : get_tier 10800000 = "🔴 Recently Joined" :=
  get_tier_matches_spec.2.1 10800000 (le_refl 10800000)

/-- Claim C7: on any sequence the endpoint returns, the history client
yields a permutation of it, sorted ascending by the slot key under which a
zero ("absent") slot counts as plus infinity; consequently element 0 has a
minimal key among all returned records. -/
theorem get_transaction_history_sorts (txs : List Tx) :
    (get_transaction_history (some txs)).Perm txs ∧
    List.Sorted (fun a b => sortKey a ≤ sortKey b) (get_transaction_history (some txs)) ∧
    (∀ t0 : Tx, ∀ rest : List Tx, get_transaction_history (some txs) = t0 :: rest →
      ∀ t ∈ txs, sortKey t0 ≤ sortKey t) := by
  by_cases he : txs.isEmpty
  · rw [List.isEmpty_iff] at he
    subst he
    refine ⟨by simp [get_transaction_history], by simp [get_transaction_history], ?_⟩
    intro t0 rest h t ht
    simp at ht
  · have hg : get_transaction_history (some txs) = sortTxs txs := by
      simp [get_transaction_history, he]
    have hperm : (sortTxs txs).Perm txs := List.perm_insertionSort _ txs
    have hsort : List.Sorted (fun a b => sortKey a ≤ sortKey b) (sortTxs txs) :=
      List.sorted_insertionSort _ txs
    refine ⟨hg ▸ hperm, hg ▸ hsort, ?_⟩
    intro t0 rest h t ht
    have hcons : sortTxs txs = t0 :: rest := by rw [← hg, h]
    have hmem : t ∈ t0 :: rest := by
      rw [← hcons]
      exact hperm.mem_iff.mpr ht
    have hsort2 : List.Sorted (fun a b => sortKey a ≤ sortKey b) (t0 :: rest) :=
      hcons ▸ hsort
    rcases List.mem_cons.mp hmem with rfl | hmem2
    · exact le_refl _
    · exact List.rel_of_sorted_cons hsort2 t hmem2

theorem get_transaction_history_sorts_witness :
    sortKey (Tx.mk 3 none) ≤ sortKey (Tx.mk 5 none) :=
  (get_transaction_history_sorts [Tx.mk 5 none, Tx.mk 0 none, Tx.mk 3 none]).2.2
    (Tx.mk 3 none) [Tx.mk 5 none, Tx.mk 0 none] (by decide) (Tx.mk 5 none) (by decide)

/-- Claim C9: every record `check_wallet` returns satisfies the field
dependencies: `exists` forces `valid`, `first_slot` forces `exists`,
`join_date` is present exactly when `first_slot` is, `score` exactly when
`tier` is, and `score` forces `first_slot`. -/
theorem check_wallet_invariant (env : Env) : fieldInvariant (check_wallet env).1 := by
  rcases env with ⟨va, acc, hist, lat⟩
  cases va
  · simp [check_wallet, fieldInvariant, emptyResult]
  · rcases acc with _ | v
    · simp [check_wallet, fieldInvariant, emptyResult]
    · rcases v with _ | u
      · simp [check_wallet, fieldInvariant, emptyResult]
      · cases u
        rcases h : get_transaction_history hist with _ | ⟨t, rest⟩
        · simp [check_wallet, h, fieldInvariant, emptyResult]
        · by_cases hz : t.slot = 0
          · simp [check_wallet, h, hz, fieldInvariant, emptyResult]
          · rcases lat with _ | l
            · simp [check_wallet, h, hz, fieldInvariant, emptyResult]
            · by_cases hl : l = 0
              · simp [check_wallet, h, hz, hl, fieldInvariant, emptyResult]
              · simp [check_wallet, h, hz, hl, fieldInvariant, emptyResult]

theorem check_wallet_invariant_witness :
    fieldInvariant (check_wallet richEnv).1 :=
  check_wallet_invariant richEnv

/-- Counterexample to claim C5 as stated: on an invalid input the returned
record has `valid = false` but its `error` field is absent, not the message
`"Invalid wallet address format"` (that text lives only in the UI layer,
source line 394). -/
theorem check_wallet_invalid_error_not_set :
    (check_wallet invalidEnv).1.valid = false ∧
    (check_wallet invalidEnv).1.error ≠ some "Invalid wallet address format" := by
  simp [check_wallet, invalidEnv, emptyResult]

/-- Claim C5 (amended): on any input failing address validation,
`check_wallet` returns the freshly initialised record — `valid = false`,
every optional field including `error` absent — and awaits no RPC call. -/
theorem check_wallet_invalid_returns_fresh (env : Env) (h : env.validAddr = false) :
    (check_wallet env).1 = emptyResult ∧ (check_wallet env).2 = [] := by
  simp [check_wallet, h]

theorem check_wallet_invalid_returns_fresh_witness :
    (check_wallet invalidEnv).1 = emptyResult ∧ (check_wallet invalidEnv).2 = [] :=
  check_wallet_invalid_returns_fresh invalidEnv rfl

/-- Counterexample to claim C6 as stated: when the account-info stage fails
(its caught exception surfaces as an absent response), the returned record
carries no populated `error` field. -/
theorem check_wallet_stage_failure_no_error :
    (check_wallet failingEnv).1.valid = true ∧
    (check_wallet failingEnv).1.exists_ = false ∧
    (check_wallet failingEnv).1.error = none := by
  simp [check_wallet, failingEnv, emptyResult]

/-- Claim C6 (amended): `check_wallet` never populates an `error` field —
on every input and every combination of stage outcomes the returned
record has `error` absent; failures only short-circuit the pipeline,
exception handling living in the RPC helpers and in the UI caller. -/
theorem check_wallet_error_always_absent (env : Env) :
    (check_wallet env).1.error = none := by
  rcases env with ⟨va, acc, hist, lat⟩
  cases va
  · simp [check_wallet, emptyResult]
  · rcases acc with _ | v
    · simp [check_wallet, emptyResult]
    · rcases v with _ | u
      · simp [check_wallet, emptyResult]
      · cases u
        rcases h : get_transaction_history hist with _ | ⟨t, rest⟩
        · simp [check_wallet, h, emptyResult]
        · by_cases hz : t.slot = 0
          · simp [check_wallet, h, hz, emptyResult]
          · rcases lat with _ | l
            · simp [check_wallet, h, hz, emptyResult]
            · by_cases hl : l = 0
              · simp [check_wallet, h, hz, hl, emptyResult]
              · simp [check_wallet, h, hz, hl, emptyResult]

/-- Claim C10: a zero slot is treated as absent — a zero-slot record sorts
strictly after every positive-slot record, and when the earliest (index 0)
record of the sorted history has slot 0 the returned record has
`exists = true` with `first_slot`, `join_date`, `score` and `tier` all
absent. -/
theorem check_wallet_zero_slot_treated_absent :
    (∀ env : Env, ∀ t : Tx, ∀ rest : List Tx,
      env.validAddr = true → env.account = some (some ()) →
      get_transaction_history env.histValue = t :: rest → t.slot = 0 →
      (check_wallet env).1 =
        { valid := true, exists_ := true, first_slot := none, join_date := none,
          score := none, tier := none, error := none }) ∧
    (∀ a b : Tx, a.slot = 0 → b.slot ≠ 0 → sortKey b < sortKey a) := by
  constructor
  · intro env t rest hv ha hh hz
    rcases env with ⟨va, acc, hist, lat⟩
    simp only at hv ha
    subst hv
    subst ha
    simp [check_wallet, hh, hz, emptyResult]
  · intro a b ha hb
    simp only [sortKey, ha, hb, if_true, if_false, Bool.false_eq_true]
    exact WithTop.coe_lt_top b.slot

theorem check_wallet_zero_slot_treated_absent_witness :
    (check_wallet zeroSlotEnv).1 =
      { valid := true, exists_ := true, first_slot := none, join_date := none,
        score := none, tier := none, error := none } ∧
    sortKey (Tx.mk 5 none) < sortKey (Tx.mk 0 none) :=
  ⟨check_wallet_zero_slot_treated_absent.1 zeroSlotEnv
      (Tx.mk 0 none) [] rfl rfl (by decide) rfl,
   check_wallet_zero_slot_treated_absent.2 (Tx.mk 0 none) (Tx.mk 5 none) rfl (by decide)⟩

end Fogo
